import Mathlib

/-!
Verification development for a creator-marketing analytics engine:
record enrichment, tier resolution, rush analysis and creator settlement.

Modelling conventions (shallow embedding of the TypeScript source):
- JavaScript numbers are embedded as exact rationals (ℚ).
- Dates are embedded at day granularity as integers (one unit = one day),
  so the millisecond arithmetic of the source (`3 * 24 * 60 * 60 * 1000`,
  `Math.ceil(ms / day)`) becomes exact integer day arithmetic, and the
  calendar-day key `date.toISOString().split('T')[0]` of a record becomes
  the date itself.
- The wall-clock reads (`new Date()`) and the calendar figures derived
  from them (end of month, days in month) are exposed as explicit
  parameters `now`, `endOfMonth`, `daysInMonth`; the source reads them
  from the ambient clock inside the functions.
- JavaScript `Map` objects (insertion ordered) are embedded as
  association lists that update existing keys in place and append new
  keys at the end; a JS `Set` of day keys is an insertion-ordered
  duplicate-free list.
- In-place array sorts (`Array.prototype.sort`, which is stable) are
  embedded as stable insertion sorts.
- Display-only fields that no computation reads (post/amazon URLs) are
  omitted from the record structures.
-/

namespace InfluencersAnalytics

/-- One tier of a creator's bonus schedule (`TierLevel` in types.ts). -/
structure TierLevel where
  threshold : ℚ
  bonus : ℚ
  name : String
deriving DecidableEq

/-- Raw daily ad record (`AdDataRaw` in types.ts). -/
structure AdDataRaw where
  date : Int
  creatorName : String
  contentName : String
  platform : String
  category : String
  theme : String
  spend : ℚ
  gmv : ℚ
  earning : ℚ
  status : String
deriving DecidableEq

/-- Enriched ad record (`AdData` in types.ts): the raw fields plus the
derived per-day and cumulative figures. -/
structure AdData where
  date : Int
  creatorName : String
  contentName : String
  platform : String
  category : String
  theme : String
  spend : ℚ
  gmv : ℚ
  earning : ℚ
  status : String
  id : String
  roi : ℚ
  cumulativeSpend : ℚ
  cumulativeEarning : ℚ
  cumulativeRoi : ℚ
deriving DecidableEq

/-- Tier snapshot for the tier tracker (`CreatorTierData` in types.ts;
the `dataMonth` string is display-only and omitted). -/
structure CreatorTierData where
  creatorName : String
  currentShippedRevenue : ℚ
  tiers : List TierLevel
deriving DecidableEq

/-- Extended bonus-cal snapshot used for settlement
(`CreatorBonusCalData` in types.ts; `dataMonth` omitted as above). -/
structure CreatorBonusCalData where
  creatorName : String
  totalShippedRevenue : ℚ
  shippedRevOrganic : ℚ
  shippedRevAds : ℚ
  commissionOrganic : ℚ
  commissionAds : ℚ
  tiers : List TierLevel
deriving DecidableEq

/-- Windowed per-post efficiency figures (`PostEfficiency` in types.ts). -/
structure PostEfficiency where
  contentName : String
  totalSpend : ℚ
  totalGmv : ℚ
  totalEarning : ℚ
  roas : ℚ
  roi : ℚ
  daysWithData : Nat
  isNewPost : Bool
  avgDailyGmv : ℚ
deriving DecidableEq

/-- Recommendation emitted by the rush analysis. -/
inductive Recommendation where
  | rush
  | consider
  | skip
deriving DecidableEq

/-- Result of the tracker's rush analysis (`RushAnalysis` in types.ts). -/
structure RushAnalysis where
  estimatedExtraSpend : ℚ
  netGain : ℚ
  recommendation : Recommendation
  avgRoas : ℚ
  avgRoi : ℚ
  posts : List PostEfficiency
deriving DecidableEq

/-- Tier progress for one creator (`TierProgress` in types.ts). -/
structure TierProgress where
  creatorName : String
  currentRevenue : ℚ
  currentTier : Option TierLevel
  currentBonus : ℚ
  nextTier : Option TierLevel
  gapToNextTier : ℚ
  daysRemaining : ℚ
  dailyGmvNeeded : ℚ
  rushAnalysis : Option RushAnalysis
deriving DecidableEq

/-- Per-post row of the rush panel: a `PostEfficiency` spread together
with the projection and extra-spend allocation fields
(`postsWithProjection` rows in `RushAnalysisPanel`). -/
structure PostProjection where
  contentName : String
  totalSpend : ℚ
  totalGmv : ℚ
  totalEarning : ℚ
  roas : ℚ
  roi : ℚ
  daysWithData : Nat
  isNewPost : Bool
  avgDailyGmv : ℚ
  projectedGmv : ℚ
  extraSpend : ℚ
  extraGmv : ℚ
  extraCost : ℚ
deriving DecidableEq

/-- Figures computed by the rush panel around its post table
(`RushAnalysisPanel` body). -/
structure RushPanelResult where
  postsWithProjection : List PostProjection
  totalProjectedGmv : ℚ
  shortfall : ℚ
  canReachNaturally : Bool
  totalExtraSpend : ℚ
  totalExtraCost : ℚ
  netGain : ℚ
deriving DecidableEq

/-- Settlement line for one creator (`CreatorSettlement` in types.ts). -/
structure CreatorSettlement where
  creatorName : String
  adSpend : ℚ
  commissionEarning : ℚ
  profit : ℚ
  bonusDiff : ℚ
  bonusDiffWeekly : ℚ
  marginTecdo : ℚ
  isProfitable : Bool
  totalTierBonus : ℚ
  organicTierBonus : ℚ
deriving DecidableEq

/-- Settlement report (`EarningsSummary` in types.ts). -/
structure EarningsSummary where
  totalSpend : ℚ
  totalCommission : ℚ
  totalProfit : ℚ
  totalBonusDiff : ℚ
  totalMarginTecdo : ℚ
  creatorSettlements : List CreatorSettlement
deriving DecidableEq

/-- Sum of `f` over a list, in the accumulator style of the source's
`reduce((sum, x) => sum + f(x), 0)`. -/
def sumBy {α : Type} (f : α → ℚ) (l : List α) : ℚ :=
  l.foldl (fun acc x => acc + f x) 0

/-! Stable insertion sorts standing for the source's `Array.prototype.sort`
calls (stable per the ECMAScript specification). -/

/-- Insert a tier into a list sorted descending by threshold, after any
earlier element with a strictly larger threshold (stable for the
comparator `(a, b) => b.threshold - a.threshold`). -/
def insertTierDesc (t : TierLevel) : List TierLevel → List TierLevel
  | [] => [t]
  | y :: ys => if y.threshold ≤ t.threshold then t :: y :: ys else y :: insertTierDesc t ys

/-- Sort tiers descending by threshold: `[...tiers].sort((a, b) => b.threshold - a.threshold)`. -/
def sortTiersDesc : List TierLevel → List TierLevel
  | [] => []
  | t :: ts => insertTierDesc t (sortTiersDesc ts)

/-- Insert a tier into a list sorted ascending by threshold (stable for
the comparator `(a, b) => a.threshold - b.threshold`). -/
def insertTierAsc (t : TierLevel) : List TierLevel → List TierLevel
  | [] => [t]
  | y :: ys => if t.threshold ≤ y.threshold then t :: y :: ys else y :: insertTierAsc t ys

/-- Sort tiers ascending by threshold: `[...tiers].sort((a, b) => a.threshold - b.threshold)`. -/
def sortTiersAsc : List TierLevel → List TierLevel
  | [] => []
  | t :: ts => insertTierAsc t (sortTiersAsc ts)

/-- Scan of the descending-sorted tier list in `calculateTierBonus`:
`for (tier of sortedTiers) if (revenue >= tier.threshold) return
tier.bonus; return 0`. -/
def tierBonusScan (revenue : ℚ) : List TierLevel → ℚ
  | [] => 0
  | t :: ts => if t.threshold ≤ revenue then t.bonus else tierBonusScan revenue ts

/-- Tier bonus for a revenue amount (`calculateTierBonus` in the data
service): sort descending by threshold and return the bonus of the first
tier whose threshold the revenue meets (`revenue >= tier.threshold`),
else 0.  The source's early return for an empty tier list coincides with
the scan's base case. -/
def calculateTierBonus (revenue : ℚ) (tiers : List TierLevel) : ℚ :=
  tierBonusScan revenue (sortTiersDesc tiers)

/-- Backwards scan of the ascending-sorted tier list in
`TierRewardsTracker`: `for (i = len-1; i >= 0; i--) if (revenue >= t[i].threshold)
{ current = t[i]; next = t[i+1] || null; break }`.  The recursion tries the
higher tiers (the tail) first, exactly like the backwards loop. -/
def resolveCurrentNext (revenue : ℚ) : List TierLevel → Option TierLevel × Option TierLevel
  | [] => (none, none)
  | t :: rest =>
    match resolveCurrentNext revenue rest with
    | (some c, n) => (some c, n)
    | (none, _) => if t.threshold ≤ revenue then (some t, rest.head?) else (none, none)

/-- Rush analysis computed in `TierRewardsTracker` (the aggregate
formula): weighted ROAS/ROI over the posts, estimated extra spend for the
whole gap, and the rush/consider/skip recommendation.  Returns `none`
when there is no post data or the aggregate ROAS is 0. -/
def mkRushAnalysis (gapToNextTier nextBonus currentBonus : ℚ)
    (posts : List PostEfficiency) : Option RushAnalysis :=
  if posts = [] then none else
  let totalSpend := sumBy (fun p => p.totalSpend) posts
  let totalGmv := sumBy (fun p => p.totalGmv) posts
  let totalEarning := sumBy (fun p => p.totalEarning) posts
  let avgRoas := if 0 < totalSpend then totalGmv / totalSpend else 0
  let avgRoi := if 0 < totalSpend then totalEarning / totalSpend else 0
  if 0 < avgRoas then
    let estimatedExtraSpend := gapToNextTier / avgRoas
    let extraBonus := nextBonus - currentBonus
    let extraCost := estimatedExtraSpend * (1 - avgRoi)
    let netGain := extraBonus - extraCost
    let recommendation :=
      if 0 < netGain then Recommendation.rush
      else if -extraBonus * (1 / 2) < netGain then Recommendation.consider
      else Recommendation.skip
    some { estimatedExtraSpend, netGain, recommendation, avgRoas, avgRoi, posts }
  else none

/-- Tier progress for one creator (`tierProgressList` body in
`TierRewardsTracker`), with the per-creator post efficiencies and the
wall-clock-derived `daysRemaining` passed in. -/
def tierProgressOf (creator : CreatorTierData) (daysRemaining : ℚ)
    (posts : List PostEfficiency) : TierProgress :=
  let sortedTiers := sortTiersAsc creator.tiers
  let cn := resolveCurrentNext creator.currentShippedRevenue sortedTiers
  let currentTier := cn.1
  let nextTier :=
    match currentTier with
    | none => sortedTiers.head?
    | some _ => cn.2
  let currentBonus := (currentTier.map TierLevel.bonus).getD 0
  let gapToNextTier :=
    match nextTier with
    | some nt => nt.threshold - creator.currentShippedRevenue
    | none => 0
  let dailyGmvNeeded :=
    if nextTier ≠ none ∧ 0 < daysRemaining then gapToNextTier / daysRemaining else 0
  let rushAnalysis :=
    match nextTier with
    | some nt =>
      if 0 < gapToNextTier then mkRushAnalysis gapToNextTier nt.bonus currentBonus posts
      else none
    | none => none
  { creatorName := creator.creatorName, currentRevenue := creator.currentShippedRevenue,
    currentTier, currentBonus, nextTier, gapToNextTier, daysRemaining, dailyGmvNeeded,
    rushAnalysis }

/-- Projection row for one post (`postsWithProjection` map in
`RushAnalysisPanel`): spread the post, add `projectedGmv = avgDailyGmv ×
daysRemaining`, zero extra fields. -/
def toProjection (daysRemaining : ℚ) (p : PostEfficiency) : PostProjection :=
  { contentName := p.contentName, totalSpend := p.totalSpend, totalGmv := p.totalGmv,
    totalEarning := p.totalEarning, roas := p.roas, roi := p.roi,
    daysWithData := p.daysWithData, isNewPost := p.isNewPost, avgDailyGmv := p.avgDailyGmv,
    projectedGmv := p.avgDailyGmv * daysRemaining, extraSpend := 0, extraGmv := 0,
    extraCost := 0 }

/-- Shortfall allocation for one row (the `forEach` mutation in
`RushAnalysisPanel` when `shortfall > 0`): allocate GMV by spend share
(equal split when total current spend is not positive), derive extra
spend via the post's ROAS (0 when ROAS is 0) and its extra cost via the
post's ROI. -/
def allocateRow (shortfall totalCurrentSpend : ℚ) (postCount : Nat)
    (q : PostProjection) : PostProjection :=
  let spendShare :=
    if 0 < totalCurrentSpend then q.totalSpend / totalCurrentSpend
    else 1 / (postCount : ℚ)
  let allocatedGmv := shortfall * spendShare
  let extraSpend := if 0 < q.roas then allocatedGmv / q.roas else 0
  { q with
    extraGmv := allocatedGmv
    extraSpend := extraSpend
    extraCost := extraSpend * (1 - q.roi) }

/-- Figures computed by `RushAnalysisPanel` from the analysis posts, the
bonus increase, the gap to the next tier and the days remaining. -/
def rushPanel (posts : List PostEfficiency) (bonusIncrease gapToNextTier daysRemaining : ℚ) :
    RushPanelResult :=
  let totalCurrentSpend := sumBy (fun p => p.totalSpend) posts
  let withProjection := posts.map (toProjection daysRemaining)
  let totalProjectedGmv := sumBy (fun q => q.projectedGmv) withProjection
  let shortfall := max 0 (gapToNextTier - totalProjectedGmv)
  let canReachNaturally := decide (shortfall = 0)
  let postsFinal :=
    if 0 < shortfall then
      withProjection.map (allocateRow shortfall totalCurrentSpend posts.length)
    else withProjection
  let totalExtraSpend := sumBy (fun q => q.extraSpend) postsFinal
  let totalExtraCost := sumBy (fun q => q.extraCost) postsFinal
  { postsWithProjection := postsFinal, totalProjectedGmv, shortfall, canReachNaturally,
    totalExtraSpend, totalExtraCost, netGain := bonusIncrease - totalExtraCost }

/-! Record enrichment (`fetchData` in services/dataService.ts, lines
103-129: the pure computation after CSV ingestion). -/

/-- Stable insertion into a list sorted ascending by date, standing for
the stable `rawData.sort((a, b) => a.date.getTime() - b.date.getTime())`. -/
def insertByDate (x : AdDataRaw) : List AdDataRaw → List AdDataRaw
  | [] => [x]
  | y :: ys => if x.date ≤ y.date then x :: y :: ys else y :: insertByDate x ys

/-- Sort raw records ascending by date. -/
def sortByDate : List AdDataRaw → List AdDataRaw
  | [] => []
  | x :: xs => insertByDate x (sortByDate xs)

/-- Lookup in an insertion-ordered association list (JS `Map.get`). -/
def mapGet {α : Type} (m : List (String × α)) (k : String) : Option α :=
  (m.find? (fun e => e.1 == k)).map (fun e => e.2)

/-- Update in an insertion-ordered association list (JS `Map.set`):
replace in place, or append a new key at the end. -/
def mapSet {α : Type} (k : String) (v : α) : List (String × α) → List (String × α)
  | [] => [(k, v)]
  | e :: rest => if e.1 = k then (k, v) :: rest else e :: mapSet k v rest

/-- Body of the enrichment `map((item, index) => ...)`: per-day ROI
(0 when spend is not positive), per-contentName running cumulative
spend/earning via the `cumulativeMap`, cumulative ROI (0 when cumulative
spend is not positive), and the `contentName-index` id. -/
def processRecords : List AdDataRaw → Nat → List (String × ℚ × ℚ) → List AdData
  | [], _, _ => []
  | item :: rest, index, cumulativeMap =>
    let roi := if 0 < item.spend then item.earning / item.spend else 0
    let prev := (mapGet cumulativeMap item.contentName).getD (0, 0)
    let newCumSpend := prev.1 + item.spend
    let newCumEarning := prev.2 + item.earning
    let nextMap := mapSet item.contentName (newCumSpend, newCumEarning) cumulativeMap
    let cumulativeRoi := if 0 < newCumSpend then newCumEarning / newCumSpend else 0
    { date := item.date, creatorName := item.creatorName, contentName := item.contentName
      platform := item.platform, category := item.category, theme := item.theme
      spend := item.spend, gmv := item.gmv, earning := item.earning, status := item.status
      id := item.contentName ++ "-" ++ toString index
      roi := roi
      cumulativeSpend := newCumSpend
      cumulativeEarning := newCumEarning
      cumulativeRoi := cumulativeRoi } :: processRecords rest (index + 1) nextMap

/-- Enriched output of `fetchData`: sort by date, then compute ROI and
cumulative figures with a fresh accumulator map. -/
def enrichRecords (records : List AdDataRaw) : List AdData :=
  processRecords (sortByDate records) 0 []

/-! Settlement engine (`calculateCreatorSettlements` and
`calculateProjectedGmv` in the data service). -/

/-- Insertion-ordered duplicate-free day set (`Set` of day keys). -/
def insertDay (d : Int) (l : List Int) : List Int :=
  if d ∈ l then l else l ++ [d]

/-- Accumulate one record into the per-post map of
`calculateProjectedGmv` (`{ gmv, days }` per contentName). -/
def bumpPost (content : String) (gmv : ℚ) (day : Int) :
    List (String × ℚ × List Int) → List (String × ℚ × List Int)
  | [] => [(content, gmv, [day])]
  | e :: rest =>
    if e.1 = content then (e.1, e.2.1 + gmv, insertDay day e.2.2) :: rest
    else e :: bumpPost content gmv day rest

/-- Projected GMV for a creator (`calculateProjectedGmv`): take the
creator's records, keep those within 3 days of the creator's latest
record date, aggregate GMV and distinct days per post, and sum
`avgDailyGmv × daysRemaining` over the posts.  `daysRemaining` comes from
the wall clock in the source and is passed in here. -/
def calculateProjectedGmv (adData : List AdData) (creatorName : String)
    (daysRemaining : ℚ) : ℚ :=
  let creatorData := adData.filter (fun d => d.creatorName == creatorName)
  match creatorData with
  | [] => 0
  | d0 :: _ =>
    let latestDate := (creatorData.map AdData.date).foldl max d0.date
    let threeDaysAgo := latestDate - 3
    let postGmvData := creatorData.foldl
      (fun m d => if d.date < threeDaysAgo then m else bumpPost d.contentName d.gmv d.date m)
      []
    postGmvData.foldl
      (fun acc e =>
        if 0 < e.2.2.length then acc + (e.2.1 / (e.2.2.length : ℚ)) * daysRemaining else acc)
      0

/-- Per-creator spend/earning aggregation over the window-filtered
records (the `creatorDataMap` build). -/
def buildCreatorDataMap (filteredData : List AdData) : List (String × ℚ × ℚ) :=
  filteredData.foldl
    (fun m d =>
      match mapGet m d.creatorName with
      | some v => mapSet d.creatorName (v.1 + d.spend, v.2 + d.earning) m
      | none => mapSet d.creatorName (d.spend, d.earning) m)
    []

/-- Settlement of one bonus-cal snapshot (the body of the first
`forEach` in `calculateCreatorSettlements`); `none` when the creator is
skipped (`commissionEarning === 0 && adSpend === 0`). -/
def settlementOfBonusCal (adData : List AdData) (creatorDataMap : List (String × ℚ × ℚ))
    (useMonthlyCommission : Bool) (periodShare daysRemaining : ℚ)
    (bonusCal : CreatorBonusCalData) : Option CreatorSettlement :=
  let creatorData := mapGet creatorDataMap bonusCal.creatorName
  let adSpend := (creatorData.map (fun v => v.1)).getD 0
  let commissionEarning :=
    if useMonthlyCommission then bonusCal.commissionAds
    else (creatorData.map (fun v => v.2)).getD 0
  if commissionEarning = 0 ∧ adSpend = 0 then none
  else
    let projectedGmv := calculateProjectedGmv adData bonusCal.creatorName daysRemaining
    let projectedTotalRevenue := bonusCal.totalShippedRevenue + projectedGmv
    let projectedTotalTierBonus := calculateTierBonus projectedTotalRevenue bonusCal.tiers
    let organicTierBonus := calculateTierBonus bonusCal.shippedRevOrganic bonusCal.tiers
    let bonusDiffMonthly := projectedTotalTierBonus - organicTierBonus
    let bonusDiffProrated :=
      if useMonthlyCommission then bonusDiffMonthly else bonusDiffMonthly * periodShare
    let totalEarning := commissionEarning + bonusDiffProrated
    let totalProfit := totalEarning - adSpend
    let isProfitable := decide (0 < totalProfit)
    let marginTecdo := if isProfitable then (1 / 2) * totalProfit else totalProfit
    some
      { creatorName := bonusCal.creatorName
        adSpend := adSpend
        commissionEarning := commissionEarning
        profit := totalProfit
        bonusDiff := bonusDiffMonthly
        bonusDiffWeekly := bonusDiffProrated
        marginTecdo := marginTecdo
        isProfitable := isProfitable
        totalTierBonus := projectedTotalTierBonus
        organicTierBonus := organicTierBonus }

/-- Degraded settlement for a creator with ad data but no bonus-cal
snapshot (the second `forEach` in `calculateCreatorSettlements`). -/
def degradedSettlement (e : String × ℚ × ℚ) : CreatorSettlement :=
  let totalEarning := e.2.2
  let totalProfit := totalEarning - e.2.1
  let isProfitable := decide (0 < totalProfit)
  { creatorName := e.1
    adSpend := e.2.1
    commissionEarning := e.2.2
    profit := totalProfit
    bonusDiff := 0
    bonusDiffWeekly := 0
    marginTecdo := if isProfitable then (1 / 2) * totalProfit else totalProfit
    isProfitable := isProfitable
    totalTierBonus := 0
    organicTierBonus := 0 }

/-- Stable insertion into a settlement list sorted descending by ad
spend (`settlements.sort((a, b) => b.adSpend - a.adSpend)`). -/
def insertSettlementDesc (s : CreatorSettlement) :
    List CreatorSettlement → List CreatorSettlement
  | [] => [s]
  | y :: ys => if y.adSpend ≤ s.adSpend then s :: y :: ys else y :: insertSettlementDesc s ys

/-- Sort settlements descending by ad spend. -/
def sortSettlementsDesc : List CreatorSettlement → List CreatorSettlement
  | [] => []
  | s :: ss => insertSettlementDesc s (sortSettlementsDesc ss)

/-- Settlement engine (`calculateCreatorSettlements`).  Dates are day
numbers; `now`, `endOfMonth` and `daysInMonth` stand for the source's
in-function wall-clock and calendar reads (`new Date()`, end of the
current month, days in the month of `endDate`).  `periodDays =
ceil((endDate - startDate) / day) + 1` is exact in day units, as is
`daysRemaining = max(1, ceil(endOfMonth - now))`.  In the source the
second pass checks `settlements.find(...)` against the array it is
extending, but the creators it appends come from the key-unique
`creatorDataMap`, so checking against the first pass's output is
equivalent. -/
def calculateCreatorSettlements (adData : List AdData) (bonusCalData : List CreatorBonusCalData)
    (startDate endDate : Int) (isMonthlyPeriod : Bool) (now endOfMonth : Int)
    (daysInMonth : ℚ) : EarningsSummary :=
  let filteredData := adData.filter (fun d => decide (startDate ≤ d.date) && decide (d.date ≤ endDate))
  let creatorDataMap := buildCreatorDataMap filteredData
  let periodDays : ℚ := ((endDate - startDate : Int) : ℚ) + 1
  let periodShare := periodDays / daysInMonth
  let useMonthlyCommission := isMonthlyPeriod
  let daysRemaining : ℚ := max 1 ((endOfMonth - now : Int) : ℚ)
  let settlementsA := bonusCalData.filterMap
    (settlementOfBonusCal adData creatorDataMap useMonthlyCommission periodShare daysRemaining)
  let settlementsAll := settlementsA ++
    (creatorDataMap.filter
      (fun e => !(settlementsA.any (fun s => s.creatorName == e.1)))).map degradedSettlement
  let settlements := sortSettlementsDesc settlementsAll
  { totalSpend := sumBy (fun s => s.adSpend) settlements
    totalCommission := sumBy (fun s => s.commissionEarning) settlements
    totalProfit := sumBy (fun s => s.profit) settlements
    totalBonusDiff := sumBy (fun s => s.bonusDiffWeekly) settlements
    totalMarginTecdo := sumBy (fun s => s.marginTecdo) settlements
    creatorSettlements := settlements }

/-! Two-phase payment split (the settlement email panel, which derives
the M+1 rewards and M+2 commission payments from a settlement line).
The source recomputes profitability locally as `s.profit >= 0` — a
non-strict comparison, unlike the engine's strict `isProfitable` flag. -/

/-- M+1 rewards payment: `isProfitable ? s.bonusDiff / 2 : s.bonusDiff`
with the panel's local `isProfitable = s.profit >= 0`. -/
def rewardsPayment (s : CreatorSettlement) : ℚ :=
  if 0 ≤ s.profit then s.bonusDiff / 2 else s.bonusDiff

/-- M+2 commission payment: `isProfitable ? s.profit / 2 + s.adSpend -
s.bonusDiff / 2 : s.commissionEarning` with the panel's local
`isProfitable = s.profit >= 0`. -/
def commissionPayment (s : CreatorSettlement) : ℚ :=
  if 0 ≤ s.profit then s.profit / 2 + s.adSpend - s.bonusDiff / 2 else s.commissionEarning

/-! Concrete inputs used to evaluate the definitions on closed cases.
The derived fields of hand-written `AdData` literals are irrelevant to
the settlement engine (it reads only date, names, spend, gmv, earning)
and are filled with neutral values. -/

/-- Build an `AdData` literal with fixed display fields. -/
def mkAd (date : Int) (creator content : String) (spend gmv earning : ℚ) : AdData :=
  { date := date, creatorName := creator, contentName := content
    platform := "IG", category := "Beauty", theme := "General"
    spend := spend, gmv := gmv, earning := earning, status := "run"
    id := "", roi := 0, cumulativeSpend := 0, cumulativeEarning := 0, cumulativeRoi := 0 }

/-- Single recent post: 100 spend, 100 GMV, 0 earning on one day. -/
def exPost : PostEfficiency :=
  { contentName := "Post 1", totalSpend := 100, totalGmv := 100, totalEarning := 0
    roas := 1, roi := 0, daysWithData := 1, isNewPost := true, avgDailyGmv := 100 }

/-- Post list for the rush examples. -/
def exPosts : List PostEfficiency := [exPost]

/-- Creator at 100 revenue facing a single 1200-threshold / 100-bonus tier. -/
def exTierCreator : CreatorTierData :=
  { creatorName := "Ada", currentShippedRevenue := 100
    tiers := [{ threshold := 1200, bonus := 100, name := "Tier 1" }] }

/-- Ad record: 60 spend, no GMV, no earning, day 0. -/
def exAdSpend : AdData := mkAd 0 "Ada" "Post 1" 60 0 0

/-- Snapshot whose settlement lands exactly at zero profit
(commission 10 + bonus diff 50 - spend 60). -/
def exSnapZeroProfit : CreatorBonusCalData :=
  { creatorName := "Ada", totalShippedRevenue := 100, shippedRevOrganic := 0
    shippedRevAds := 100, commissionOrganic := 0, commissionAds := 10
    tiers := [{ threshold := 100, bonus := 50, name := "Tier 1" }] }

/-- Snapshot whose settlement is strictly profitable
(commission 100 + bonus diff 50 - spend 60 = 90). -/
def exSnapProfit : CreatorBonusCalData :=
  { creatorName := "Ada", totalShippedRevenue := 100, shippedRevOrganic := 0
    shippedRevAds := 100, commissionOrganic := 0, commissionAds := 100
    tiers := [{ threshold := 100, bonus := 50, name := "Tier 1" }] }

/-- Ad record carrying only GMV (50 on day 0), for the projection. -/
def exAdGmv : AdData := mkAd 0 "Ada" "Post 1" 0 50 0

/-- Snapshot at zero revenue whose projected tier bonus depends on how
many days remain in the month. -/
def exSnapClock : CreatorBonusCalData :=
  { creatorName := "Ada", totalShippedRevenue := 0, shippedRevOrganic := 0
    shippedRevAds := 0, commissionOrganic := 0, commissionAds := 10
    tiers := [{ threshold := 100, bonus := 50, name := "Tier 1" }] }

/-- Ad record for a creator without a snapshot. -/
def exAdBeth : AdData := mkAd 0 "Beth" "Post B" 5 0 0

/-- Snapshot with zero commission-ads for a creator with no ad records:
the settlement engine skips it. -/
def exSnapSkip : CreatorBonusCalData :=
  { creatorName := "Ada", totalShippedRevenue := 0, shippedRevOrganic := 0
    shippedRevAds := 0, commissionOrganic := 0, commissionAds := 0
    tiers := [{ threshold := 100, bonus := 50, name := "Tier 1" }] }

/-- Raw record: day 0, spend 1, earning 2. -/
def exRawEarly : AdDataRaw :=
  { date := 0, creatorName := "Ada", contentName := "Post 1", platform := "IG"
    category := "Beauty", theme := "General", spend := 1, gmv := 0, earning := 2
    status := "run" }

/-- Raw record: day 1, spend 3, earning 4, same content. -/
def exRawLate : AdDataRaw :=
  { date := 1, creatorName := "Ada", contentName := "Post 1", platform := "IG"
    category := "Beauty", theme := "General", spend := 3, gmv := 0, earning := 4
    status := "run" }

/-- Settlement the engine produces for `exAdSpend` and
`exSnapZeroProfit` (zero total profit). -/
def exSettlementZero : CreatorSettlement :=
  { creatorName := "Ada", adSpend := 60, commissionEarning := 10, profit := 0, bonusDiff := 50
    bonusDiffWeekly := 50, marginTecdo := 0, isProfitable := false, totalTierBonus := 50
    organicTierBonus := 0 }

/-- Settlement the engine produces for `exAdSpend` and `exSnapProfit`
(total profit 90). -/
def exSettlementProfit : CreatorSettlement :=
  { creatorName := "Ada", adSpend := 60, commissionEarning := 100, profit := 90, bonusDiff := 50
    bonusDiffWeekly := 50, marginTecdo := 45, isProfitable := true, totalTierBonus := 50
    organicTierBonus := 0 }

/-- Rush analysis the tracker produces for `exTierCreator` with
`exPosts` (gap 1100, aggregate ROAS 1, ROI 0). -/
def exRushAnalysis : RushAnalysis :=
  { estimatedExtraSpend := 1100, netGain := -1000, recommendation := Recommendation.skip
    avgRoas := 1, avgRoi := 0, posts := exPosts }

/-- Two-tier schedule with increasing bonuses (the spec's own example). -/
def tiersGood : List TierLevel :=
  [{ threshold := 1000, bonus := 50, name := "Tier 1" },
   { threshold := 5000, bonus := 200, name := "Tier 2" }]

/-- Two-tier schedule with strictly increasing thresholds but a
decreasing bonus. -/
def tiersBad : List TierLevel :=
  [{ threshold := 100, bonus := 500, name := "Tier 1" },
   { threshold := 200, bonus := 10, name := "Tier 2" }]

/-! Helper lemmas about the embedded operations. -/

theorem foldl_add_eq {α : Type} (f : α → ℚ) (l : List α) :
    ∀ c : ℚ, l.foldl (fun acc x => acc + f x) c = c + (l.map f).sum := by
  induction l with
  | nil => intro c; simp
  | cons x xs ih => intro c; simp [ih, add_assoc]

theorem sumBy_eq_sum_map {α : Type} (f : α → ℚ) (l : List α) :
    sumBy f l = (l.map f).sum := by
  simpa [sumBy] using foldl_add_eq f l 0

theorem sumBy_map {α β : Type} (g : α → β) (f : β → ℚ) (l : List α) :
    sumBy f (l.map g) = sumBy (fun x => f (g x)) l := by
  simp only [sumBy_eq_sum_map, List.map_map]
  rfl

theorem sumBy_congr {α : Type} {f g : α → ℚ} {l : List α}
    (h : ∀ x ∈ l, f x = g x) : sumBy f l = sumBy g l := by
  simp only [sumBy_eq_sum_map]
  exact congrArg List.sum (List.map_congr_left h)

theorem sumBy_mul_left {α : Type} (c : ℚ) (f : α → ℚ) (l : List α) :
    sumBy (fun x => c * f x) l = c * sumBy f l := by
  simp only [sumBy_eq_sum_map]
  induction l with
  | nil => simp
  | cons x xs ih => simp [ih]; ring

theorem sumBy_const {α : Type} (c : ℚ) (l : List α) :
    sumBy (fun _ => c) l = (l.length : ℚ) * c := by
  simp only [sumBy_eq_sum_map]
  induction l with
  | nil => simp
  | cons x xs ih => simp [ih]; ring

/-! Lemmas about the tier sorts. -/

theorem insertTierDesc_append (t : TierLevel) (l : List TierLevel)
    (h : ∀ y ∈ l, ¬ y.threshold ≤ t.threshold) : insertTierDesc t l = l ++ [t] := by
  induction l with
  | nil => rfl
  | cons y ys ih =>
    have hy := h y (List.mem_cons_self y ys)
    simp [insertTierDesc, hy, ih (fun z hz => h z (List.mem_cons_of_mem y hz))]

/-- On a list whose thresholds strictly increase, the descending sort is
exactly the reverse. -/
theorem sortTiersDesc_eq_reverse (l : List TierLevel)
    (h : l.Pairwise fun a b => a.threshold < b.threshold) :
    sortTiersDesc l = l.reverse := by
  induction l with
  | nil => rfl
  | cons x xs ih =>
    have hp := List.pairwise_cons.mp h
    have hrec : sortTiersDesc (x :: xs) = insertTierDesc x (sortTiersDesc xs) := rfl
    rw [hrec, ih hp.2, insertTierDesc_append, List.reverse_cons]
    intro y hy
    exact not_le.mpr (hp.1 y (List.mem_reverse.mp hy))

/-- On a list whose thresholds strictly increase, the ascending sort is
the identity. -/
theorem sortTiersAsc_eq_self (l : List TierLevel)
    (h : l.Pairwise fun a b => a.threshold < b.threshold) :
    sortTiersAsc l = l := by
  induction l with
  | nil => rfl
  | cons x xs ih =>
    have hp := List.pairwise_cons.mp h
    have hrec : sortTiersAsc (x :: xs) = insertTierAsc x (sortTiersAsc xs) := rfl
    rw [hrec, ih hp.2]
    cases xs with
    | nil => rfl
    | cons y ys => simp [insertTierAsc, le_of_lt (hp.1 y (List.mem_cons_self y ys))]

/-! Lemmas about the tier-bonus scan. -/

/-- In a strictly descending tier list, the scan at a revenue equal to a
member tier's threshold returns exactly that tier's bonus. -/
theorem tierBonusScan_strictDesc_eq {l : List TierLevel} {t : TierLevel}
    (hd : l.Pairwise fun a b => b.threshold < a.threshold) (ht : t ∈ l) :
    tierBonusScan t.threshold l = t.bonus := by
  induction l with
  | nil => cases ht
  | cons u tl ih =>
    have hp := List.pairwise_cons.mp hd
    rcases List.mem_cons.mp ht with rfl | htl
    · simp [tierBonusScan]
    · have hlt : t.threshold < u.threshold := hp.1 t htl
      simp [tierBonusScan, not_le.mpr hlt, ih hp.2 htl]

theorem tierBonusScan_le {l : List TierLevel} {B r : ℚ}
    (hb : ∀ u ∈ l, u.bonus ≤ B) (h0 : 0 ≤ B) : tierBonusScan r l ≤ B := by
  induction l with
  | nil => simpa [tierBonusScan] using h0
  | cons u tl ih =>
    by_cases hc : u.threshold ≤ r
    · simpa [tierBonusScan, hc] using hb u (List.mem_cons_self u tl)
    · simpa [tierBonusScan, hc] using
        ih (fun z hz => hb z (List.mem_cons_of_mem u hz))

/-- The scan is monotone in revenue when bonuses are nonnegative and
non-increasing along the (descending) list. -/
theorem tierBonusScan_mono {l : List TierLevel} {r1 r2 : ℚ}
    (hb : l.Pairwise fun a b => b.bonus ≤ a.bonus)
    (h0 : ∀ u ∈ l, 0 ≤ u.bonus) (hr : r1 ≤ r2) :
    tierBonusScan r1 l ≤ tierBonusScan r2 l := by
  induction l with
  | nil => simp [tierBonusScan]
  | cons u tl ih =>
    have hp := List.pairwise_cons.mp hb
    by_cases h1 : u.threshold ≤ r1
    · simp [tierBonusScan, h1, le_trans h1 hr]
    · by_cases h2 : u.threshold ≤ r2
      · have hless : tierBonusScan r1 tl ≤ u.bonus :=
          tierBonusScan_le hp.1 (h0 u (List.mem_cons_self u tl))
        simpa [tierBonusScan, h1, h2] using hless
      · simpa [tierBonusScan, h1, h2] using
          ih hp.2 (fun z hz => h0 z (List.mem_cons_of_mem u hz))

/-! Lemmas about the tracker's backwards tier scan. -/

theorem resolveCurrentNext_eq_none {r : ℚ} {l : List TierLevel}
    (h : ∀ u ∈ l, r < u.threshold) : resolveCurrentNext r l = (none, none) := by
  induction l with
  | nil => rfl
  | cons u tl ih =>
    have h1 := ih (fun z hz => h z (List.mem_cons_of_mem u hz))
    have hu : ¬ u.threshold ≤ r := not_le.mpr (h u (List.mem_cons_self u tl))
    simp only [resolveCurrentNext, h1]
    simp [hu]

theorem resolveCurrentNext_fst_eq {l : List TierLevel} {t : TierLevel}
    (hd : l.Pairwise fun a b => a.threshold < b.threshold) (ht : t ∈ l) :
    (resolveCurrentNext t.threshold l).1 = some t := by
  induction l with
  | nil => cases ht
  | cons u tl ih =>
    have hp := List.pairwise_cons.mp hd
    rcases List.mem_cons.mp ht with rfl | htl
    · have h1 : resolveCurrentNext t.threshold tl = (none, none) :=
        resolveCurrentNext_eq_none (fun z hz => hp.1 z hz)
      simp only [resolveCurrentNext, h1]
      simp
    · have h1 := ih hp.2 htl
      cases hres : resolveCurrentNext t.threshold tl with
      | mk c n =>
        rw [hres] at h1
        cases c with
        | none => simp at h1
        | some v =>
          simp only [Prod.fst] at h1
          simp only [resolveCurrentNext, hres]
          simpa using h1

/-- C5: with strictly increasing thresholds, a revenue exactly equal to
a tier's threshold resolves to that tier: `calculateTierBonus` returns
its bonus (the comparison is `>=`, not `>`), and the tracker's backwards
scan selects it as the current tier. -/
theorem tier_boundary_inclusive (tiers : List TierLevel) (t : TierLevel) (revenue : ℚ)
    (hsorted : tiers.Pairwise fun a b => a.threshold < b.threshold)
    (ht : t ∈ tiers) (hrev : revenue = t.threshold) :
    calculateTierBonus revenue tiers = t.bonus ∧
    (resolveCurrentNext revenue (sortTiersAsc tiers)).1 = some t := by
  subst hrev
  refine ⟨?bonus, ?current⟩
  · rw [calculateTierBonus, sortTiersDesc_eq_reverse tiers hsorted]
    exact tierBonusScan_strictDesc_eq
      ((List.pairwise_reverse).mpr hsorted) (List.mem_reverse.mpr ht)
  · rw [sortTiersAsc_eq_self tiers hsorted]
    exact resolveCurrentNext_fst_eq hsorted ht

/-- Witness for C5: with tiers 1000 ↦ 50 and 5000 ↦ 200, revenue 1000
resolves to the 50 bonus (not 0). -/
theorem tier_boundary_inclusive_witness :
    calculateTierBonus 1000 tiersGood = 50 ∧
    (resolveCurrentNext 1000 (sortTiersAsc tiersGood)).1 =
      some { threshold := 1000, bonus := 50, name := "Tier 1" } :=
  tier_boundary_inclusive tiersGood { threshold := 1000, bonus := 50, name := "Tier 1" } 1000
    (by norm_num [tiersGood, List.pairwise_cons]) (by simp [tiersGood]) rfl

/-- C6 counterexample: `tiersBad` has strictly increasing thresholds
(100 < 200) yet the resolved bonus drops from 500 at revenue 100 to 10
at revenue 200, so the claim's monotonicity fails as stated. -/
theorem tier_bonus_not_monotone_cex :
    (tiersBad.Pairwise fun a b => a.threshold < b.threshold) ∧
    (100 : ℚ) ≤ 200 ∧
    calculateTierBonus 100 tiersBad = 500 ∧
    calculateTierBonus 200 tiersBad = 10 ∧
    ¬ calculateTierBonus 100 tiersBad ≤ calculateTierBonus 200 tiersBad := by
  refine ⟨by norm_num [tiersBad, List.pairwise_cons], by norm_num, ?e1, ?e2, ?lt⟩ <;>
    norm_num [calculateTierBonus, tiersBad, sortTiersDesc, insertTierDesc, tierBonusScan]

/-- C6 amended: the resolved bonus is monotone in revenue provided the
tier list, sorted ascending by threshold, also has non-decreasing and
nonnegative bonuses (true of intended schedules; the code does not force
it, and the claim fails without it — see the counterexample). -/
theorem tier_bonus_monotone (tiers : List TierLevel) (r1 r2 : ℚ)
    (hsorted : tiers.Pairwise fun a b => a.threshold < b.threshold ∧ a.bonus ≤ b.bonus)
    (h0 : ∀ t ∈ tiers, 0 ≤ t.bonus) (hr : r1 ≤ r2) :
    calculateTierBonus r1 tiers ≤ calculateTierBonus r2 tiers := by
  have hthr : tiers.Pairwise fun a b => a.threshold < b.threshold :=
    hsorted.imp (fun h => h.1)
  rw [calculateTierBonus, calculateTierBonus, sortTiersDesc_eq_reverse tiers hthr]
  refine tierBonusScan_mono ?bon ?pos hr
  · exact (List.pairwise_reverse).mpr (hsorted.imp fun h => h.2)
  · intro u hu
    exact h0 u (List.mem_reverse.mp hu)

/-- Witness for the amended C6 at revenues 500 ≤ 6000 over `tiersGood`. -/
theorem tier_bonus_monotone_witness :
    calculateTierBonus 500 tiersGood ≤ calculateTierBonus 6000 tiersGood :=
  tier_bonus_monotone tiersGood 500 6000
    (by norm_num [tiersGood, List.pairwise_cons]) (by simp [tiersGood]) (by norm_num)

/-! Further sum lemmas used by the shortfall allocation. -/

theorem sumBy_div {α : Type} (f : α → ℚ) (c : ℚ) (l : List α) :
    sumBy (fun x => f x / c) l = sumBy f l / c := by
  simp only [sumBy_eq_sum_map, div_eq_mul_inv]
  induction l with
  | nil => simp
  | cons x xs ih => simp [ih]; ring

/-- The allocated extra GMV over the rows sums back to the shortfall. -/
theorem sum_extraGmv_alloc (posts : List PostEfficiency) (sf d : ℚ) (hne : posts ≠ []) :
    sumBy (fun q => q.extraGmv)
      ((posts.map (toProjection d)).map
        (allocateRow sf (sumBy (fun p => p.totalSpend) posts) posts.length)) = sf := by
  have hlen : ((posts.length : ℚ)) ≠ 0 := by
    simpa using fun h => hne (List.length_eq_zero.mp h)
  rw [sumBy_map, sumBy_map]
  have hrow : ∀ p ∈ posts,
      (allocateRow sf (sumBy (fun p => p.totalSpend) posts) posts.length
        (toProjection d p)).extraGmv
      = sf * (if 0 < sumBy (fun p => p.totalSpend) posts
          then p.totalSpend / sumBy (fun p => p.totalSpend) posts
          else 1 / (posts.length : ℚ)) := by
    intro p hp
    simp [allocateRow, toProjection]
  rw [sumBy_congr hrow]
  by_cases hT : 0 < sumBy (fun p => p.totalSpend) posts
  · simp only [if_pos hT]
    rw [sumBy_mul_left, sumBy_div, div_self (ne_of_gt hT), mul_one]
  · simp only [if_neg hT]
    rw [sumBy_const, one_div]
    field_simp

/-- C8: whenever the shortfall allocation runs over a non-empty post
list, the per-post extra GMV amounts sum exactly to the shortfall, and
the reported `totalExtraSpend` / `totalExtraCost` equal the sums of the
per-post `extraSpend` / `extraCost`. -/
theorem shortfall_allocation_sums (posts : List PostEfficiency)
    (bonusIncrease gap daysRemaining : ℚ) (hne : posts ≠ [])
    (hsf : 0 < (rushPanel posts bonusIncrease gap daysRemaining).shortfall) :
    sumBy (fun q => q.extraGmv)
        (rushPanel posts bonusIncrease gap daysRemaining).postsWithProjection
      = (rushPanel posts bonusIncrease gap daysRemaining).shortfall ∧
    (rushPanel posts bonusIncrease gap daysRemaining).totalExtraSpend
      = sumBy (fun q => q.extraSpend)
          (rushPanel posts bonusIncrease gap daysRemaining).postsWithProjection ∧
    (rushPanel posts bonusIncrease gap daysRemaining).totalExtraCost
      = sumBy (fun q => q.extraCost)
          (rushPanel posts bonusIncrease gap daysRemaining).postsWithProjection := by
  refine ⟨?gmv, rfl, rfl⟩
  have hsf0 : 0 < max 0 (gap -
      sumBy (fun q => q.projectedGmv) (posts.map (toProjection daysRemaining))) := hsf
  show sumBy (fun q => q.extraGmv)
      (if 0 < max 0 (gap - sumBy (fun q => q.projectedGmv) (posts.map (toProjection daysRemaining)))
       then (posts.map (toProjection daysRemaining)).map
         (allocateRow
           (max 0 (gap - sumBy (fun q => q.projectedGmv) (posts.map (toProjection daysRemaining))))
           (sumBy (fun p => p.totalSpend) posts) posts.length)
       else posts.map (toProjection daysRemaining))
    = max 0 (gap - sumBy (fun q => q.projectedGmv) (posts.map (toProjection daysRemaining)))
  rw [if_pos hsf0]
  exact sum_extraGmv_alloc posts _ daysRemaining hne

/-- Witness for C8 on the concrete posts (shortfall 100 > 0). -/
theorem shortfall_allocation_sums_witness :
    sumBy (fun q => q.extraGmv) (rushPanel exPosts 100 1100 10).postsWithProjection
      = (rushPanel exPosts 100 1100 10).shortfall ∧
    (rushPanel exPosts 100 1100 10).totalExtraSpend
      = sumBy (fun q => q.extraSpend) (rushPanel exPosts 100 1100 10).postsWithProjection ∧
    (rushPanel exPosts 100 1100 10).totalExtraCost
      = sumBy (fun q => q.extraCost) (rushPanel exPosts 100 1100 10).postsWithProjection :=
  shortfall_allocation_sums exPosts 100 1100 10 (by simp [exPosts])
    (by norm_num [rushPanel, exPosts, exPost, toProjection, sumBy])

/-- C4 amended: the recommendation in a produced rush analysis follows
the rush / consider / skip thresholds applied to the TRACKER's aggregate
`netGain` (bonus increase minus `gap / avgRoas × (1 - avgRoi)`), while
the panel's `netGain` is the bonus increase minus the allocation-based
`totalExtraCost`; the two are computed from different cost figures, so
the recommendation is not in general the threshold function of the
panel's `netGain` (see the counterexample). -/
theorem rush_recommendation_and_panel :
    (∀ (gap nextBonus currentBonus : ℚ) (posts : List PostEfficiency) (ra : RushAnalysis),
      mkRushAnalysis gap nextBonus currentBonus posts = some ra →
      ra.recommendation =
        (if 0 < ra.netGain then Recommendation.rush
         else if -(nextBonus - currentBonus) * (1 / 2) < ra.netGain then Recommendation.consider
         else Recommendation.skip)) ∧
    (∀ (posts : List PostEfficiency) (bonusIncrease gap daysRemaining : ℚ),
      (rushPanel posts bonusIncrease gap daysRemaining).netGain =
        bonusIncrease - (rushPanel posts bonusIncrease gap daysRemaining).totalExtraCost ∧
      (rushPanel posts bonusIncrease gap daysRemaining).totalExtraCost =
        sumBy (fun q => q.extraCost)
          (rushPanel posts bonusIncrease gap daysRemaining).postsWithProjection) := by
  constructor
  · intro gap nextBonus currentBonus posts ra h
    simp only [mkRushAnalysis] at h
    split at h
    · exact absurd h (by simp)
    · split at h <;> split at h <;>
        first
          | (rw [Option.some.injEq] at h; subst h; rfl)
          | exact absurd h (by simp)
  · intro posts bonusIncrease gap daysRemaining
    exact ⟨rfl, rfl⟩

/-- Witness for the amended C4: the concrete analysis for gap 1100 and
bonus increase 100 carries recommendation skip, matching the thresholds
on its own netGain of -1000. -/
theorem rush_recommendation_and_panel_witness :
    exRushAnalysis.recommendation =
      (if 0 < exRushAnalysis.netGain then Recommendation.rush
       else if -((100 : ℚ) - 0) * (1 / 2) < exRushAnalysis.netGain then Recommendation.consider
       else Recommendation.skip) :=
  (rush_recommendation_and_panel).1 1100 100 0 exPosts exRushAnalysis
    (by norm_num [mkRushAnalysis, exPosts, exPost, exRushAnalysis, sumBy])

/-- C4 counterexample: for the creator at revenue 100 with a 1200 ↦ 100
tier and one recent post (spend 100, GMV 100, earning 0, 10 days
remaining), the produced rush analysis recommends skip, while the
panel's allocation-based netGain is 0 and the claim's threshold formula
applied to it yields consider. -/
theorem rush_recommendation_mismatch_cex :
    0 < (tierProgressOf exTierCreator 10 exPosts).gapToNextTier ∧
    exPosts ≠ [] ∧
    Option.map TierLevel.bonus (tierProgressOf exTierCreator 10 exPosts).nextTier = some 100 ∧
    (tierProgressOf exTierCreator 10 exPosts).currentBonus = 0 ∧
    Option.map RushAnalysis.recommendation (tierProgressOf exTierCreator 10 exPosts).rushAnalysis
      = some Recommendation.skip ∧
    (rushPanel exPosts 100 (tierProgressOf exTierCreator 10 exPosts).gapToNextTier 10).netGain
      = 0 ∧
    (if 0 < (rushPanel exPosts 100
          (tierProgressOf exTierCreator 10 exPosts).gapToNextTier 10).netGain
        then Recommendation.rush
     else if -(100 : ℚ) * (1 / 2) < (rushPanel exPosts 100
          (tierProgressOf exTierCreator 10 exPosts).gapToNextTier 10).netGain
        then Recommendation.consider
     else Recommendation.skip) = Recommendation.consider := by
  have hprog : tierProgressOf exTierCreator 10 exPosts =
      { creatorName := "Ada", currentRevenue := 100, currentTier := none, currentBonus := 0
        nextTier := some { threshold := 1200, bonus := 100, name := "Tier 1" }
        gapToNextTier := 1100, daysRemaining := 10, dailyGmvNeeded := 110
        rushAnalysis := some exRushAnalysis } := by
    norm_num [tierProgressOf, exTierCreator, exPosts, exPost, sortTiersAsc, insertTierAsc,
      resolveCurrentNext, mkRushAnalysis, sumBy, exRushAnalysis, Option.some_ne_none]
  rw [hprog]
  norm_num [rushPanel, exPosts, exPost, toProjection, allocateRow, sumBy, exRushAnalysis]

/-! Lemmas about the settlement engine. -/

theorem mem_insertSettlementDesc {s x : CreatorSettlement} {l : List CreatorSettlement} :
    x ∈ insertSettlementDesc s l ↔ x ∈ s :: l := by
  induction l with
  | nil => simp [insertSettlementDesc]
  | cons y ys ih =>
    by_cases hc : y.adSpend ≤ s.adSpend
    · simp [insertSettlementDesc, hc]
    · simp only [insertSettlementDesc, if_neg hc, List.mem_cons, ih]
      tauto

theorem mem_sortSettlementsDesc {x : CreatorSettlement} {l : List CreatorSettlement} :
    x ∈ sortSettlementsDesc l ↔ x ∈ l := by
  induction l with
  | nil => simp [sortSettlementsDesc]
  | cons y ys ih =>
    have hrec : sortSettlementsDesc (y :: ys) = insertSettlementDesc y (sortSettlementsDesc ys) :=
      rfl
    rw [hrec, mem_insertSettlementDesc]
    simp [ih]

/-- Every settlement the first pass emits carries the strict
profitability flag and the asymmetric margin. -/
theorem settlementOfBonusCal_some_inv {adData : List AdData}
    {creatorDataMap : List (String × ℚ × ℚ)} {u : Bool} {p d : ℚ}
    {bonusCal : CreatorBonusCalData} {s : CreatorSettlement}
    (h : settlementOfBonusCal adData creatorDataMap u p d bonusCal = some s) :
    s.isProfitable = decide (0 < s.profit) ∧
    s.marginTecdo = (if 0 < s.profit then (1 / 2) * s.profit else s.profit) := by
  simp only [settlementOfBonusCal] at h
  split at h <;> split at h <;>
    first
      | (rw [Option.some.injEq] at h; subst h; exact ⟨rfl, by simp⟩)
      | exact absurd h (by simp)

/-- The degraded settlements of the second pass carry the same flag and
margin rule. -/
theorem degradedSettlement_inv (e : String × ℚ × ℚ) :
    (degradedSettlement e).isProfitable = decide (0 < (degradedSettlement e).profit) ∧
    (degradedSettlement e).marginTecdo =
      (if 0 < (degradedSettlement e).profit then (1 / 2) * (degradedSettlement e).profit
       else (degradedSettlement e).profit) :=
  ⟨rfl, by simp [degradedSettlement]⟩

/-- Every settlement in the engine's output satisfies the profitability
flag / margin invariant. -/
theorem mem_creatorSettlements_inv (adData : List AdData)
    (bonusCalData : List CreatorBonusCalData) (startDate endDate : Int)
    (isMonthlyPeriod : Bool) (now endOfMonth : Int) (daysInMonth : ℚ)
    (s : CreatorSettlement)
    (hs : s ∈ (calculateCreatorSettlements adData bonusCalData startDate endDate
        isMonthlyPeriod now endOfMonth daysInMonth).creatorSettlements) :
    s.isProfitable = decide (0 < s.profit) ∧
    s.marginTecdo = (if 0 < s.profit then (1 / 2) * s.profit else s.profit) := by
  simp only [calculateCreatorSettlements] at hs
  rw [mem_sortSettlementsDesc] at hs
  rcases List.mem_append.mp hs with hA | hB
  · obtain ⟨b, hb, hfb⟩ := List.mem_filterMap.mp hA
    exact settlementOfBonusCal_some_inv hfb
  · obtain ⟨e, he, rfl⟩ := List.mem_map.mp hB
    exact degradedSettlement_inv e

/-- Concrete run of the engine on the zero-profit input. -/
theorem exSettlements_zero_eq :
    (calculateCreatorSettlements [exAdSpend] [exSnapZeroProfit] 0 0 true 9 10
      30).creatorSettlements = [exSettlementZero] := by
  norm_num [calculateCreatorSettlements, buildCreatorDataMap, mapGet, mapSet,
    settlementOfBonusCal, calculateProjectedGmv, bumpPost, insertDay, calculateTierBonus,
    sortTiersDesc, insertTierDesc, tierBonusScan, sortSettlementsDesc, insertSettlementDesc,
    degradedSettlement, sumBy, exAdSpend, exSnapZeroProfit, exSettlementZero, mkAd,
    List.find?, max_def]

/-- Concrete run of the engine on the profitable input. -/
theorem exSettlements_profit_eq :
    (calculateCreatorSettlements [exAdSpend] [exSnapProfit] 0 0 true 9 10
      30).creatorSettlements = [exSettlementProfit] := by
  norm_num [calculateCreatorSettlements, buildCreatorDataMap, mapGet, mapSet,
    settlementOfBonusCal, calculateProjectedGmv, bumpPost, insertDay, calculateTierBonus,
    sortTiersDesc, insertTierDesc, tierBonusScan, sortSettlementsDesc, insertSettlementDesc,
    degradedSettlement, sumBy, exAdSpend, exSnapProfit, exSettlementProfit, mkAd,
    List.find?, max_def]

/-- C1: for every settlement the engine produces, the platform margin is
the asymmetric split: half the total profit when the profit is strictly
positive, the whole total profit (the full loss) otherwise. -/
theorem margin_split_asymmetric (adData : List AdData)
    (bonusCalData : List CreatorBonusCalData) (startDate endDate : Int)
    (isMonthlyPeriod : Bool) (now endOfMonth : Int) (daysInMonth : ℚ)
    (s : CreatorSettlement)
    (hs : s ∈ (calculateCreatorSettlements adData bonusCalData startDate endDate
        isMonthlyPeriod now endOfMonth daysInMonth).creatorSettlements) :
    (0 < s.profit → s.marginTecdo = (1 / 2) * s.profit) ∧
    (s.profit ≤ 0 → s.marginTecdo = s.profit) := by
  obtain ⟨-, hm⟩ := mem_creatorSettlements_inv adData bonusCalData startDate endDate
    isMonthlyPeriod now endOfMonth daysInMonth s hs
  constructor
  · intro hp
    rw [hm, if_pos hp]
  · intro hp
    rw [hm, if_neg (not_lt.mpr hp)]

/-- Witness for C1: the concrete profitable settlement (profit 90) has
margin 45. -/
theorem margin_split_asymmetric_witness :
    0 < exSettlementProfit.profit ∧
    exSettlementProfit.marginTecdo = (1 / 2) * exSettlementProfit.profit := by
  have h := margin_split_asymmetric [exAdSpend] [exSnapProfit] 0 0 true 9 10 30
    exSettlementProfit (by rw [exSettlements_profit_eq]; exact List.mem_singleton_self _)
  have hp : 0 < exSettlementProfit.profit := by norm_num [exSettlementProfit]
  exact ⟨hp, h.1 hp⟩

/-- C7: for every settlement the engine produces, the profitability flag
is the strict comparison `0 < profit`; in particular zero profit is not
profitable. -/
theorem isProfitable_strict (adData : List AdData)
    (bonusCalData : List CreatorBonusCalData) (startDate endDate : Int)
    (isMonthlyPeriod : Bool) (now endOfMonth : Int) (daysInMonth : ℚ)
    (s : CreatorSettlement)
    (hs : s ∈ (calculateCreatorSettlements adData bonusCalData startDate endDate
        isMonthlyPeriod now endOfMonth daysInMonth).creatorSettlements) :
    (s.isProfitable = true ↔ 0 < s.profit) ∧ (s.profit = 0 → s.isProfitable = false) := by
  obtain ⟨hip, -⟩ := mem_creatorSettlements_inv adData bonusCalData startDate endDate
    isMonthlyPeriod now endOfMonth daysInMonth s hs
  constructor
  · rw [hip]
    simp
  · intro h0
    rw [hip, h0]
    simp

/-- Witness for C7: the concrete zero-profit settlement is flagged not
profitable. -/
theorem isProfitable_strict_witness :
    exSettlementZero.profit = 0 ∧ exSettlementZero.isProfitable = false := by
  have h := isProfitable_strict [exAdSpend] [exSnapZeroProfit] 0 0 true 9 10 30
    exSettlementZero (by rw [exSettlements_zero_eq]; exact List.mem_singleton_self _)
  exact ⟨rfl, h.2 rfl⟩

/-- C2 counterexample: the engine's settlement for `exSnapZeroProfit`
has total profit exactly 0, so its `isProfitable` flag is false; the
claim then demands `rewardsPaymentM1 = bonusDiff = 50` and
`commissionPaymentM2 = commissionEarning = 10`, but the email panel's
split (gated on the non-strict `profit >= 0`) pays 25 and 35. -/
theorem payment_split_strict_flag_cex :
    exSettlementZero ∈ (calculateCreatorSettlements [exAdSpend] [exSnapZeroProfit] 0 0 true 9 10
        30).creatorSettlements ∧
    exSettlementZero.isProfitable = false ∧
    exSettlementZero.profit = 0 ∧
    exSettlementZero.bonusDiff = 50 ∧
    exSettlementZero.commissionEarning = 10 ∧
    rewardsPayment exSettlementZero = 25 ∧
    ¬ rewardsPayment exSettlementZero = exSettlementZero.bonusDiff ∧
    commissionPayment exSettlementZero = 35 ∧
    ¬ commissionPayment exSettlementZero = exSettlementZero.commissionEarning := by
  refine ⟨by rw [exSettlements_zero_eq]; exact List.mem_singleton_self _, rfl, rfl, rfl, rfl,
    ?r1, ?r2, ?r3, ?r4⟩ <;>
    norm_num [rewardsPayment, commissionPayment, exSettlementZero]

/-- C2 amended: the two-phase split is gated on the email panel's
non-strict `profit >= 0`, which agrees with the settlement's strict
`isProfitable` flag everywhere except at zero profit, where the
profitable-side formulas apply although the flag is false. -/
theorem payment_split_nonstrict (adData : List AdData)
    (bonusCalData : List CreatorBonusCalData) (startDate endDate : Int)
    (isMonthlyPeriod : Bool) (now endOfMonth : Int) (daysInMonth : ℚ)
    (s : CreatorSettlement)
    (hs : s ∈ (calculateCreatorSettlements adData bonusCalData startDate endDate
        isMonthlyPeriod now endOfMonth daysInMonth).creatorSettlements) :
    ((s.isProfitable = true ∨ s.profit = 0) →
      rewardsPayment s = s.bonusDiff / 2 ∧
      commissionPayment s = s.profit / 2 + s.adSpend - s.bonusDiff / 2) ∧
    ((s.isProfitable = false ∧ s.profit ≠ 0) →
      rewardsPayment s = s.bonusDiff ∧ commissionPayment s = s.commissionEarning) := by
  obtain ⟨hip, -⟩ := mem_creatorSettlements_inv adData bonusCalData startDate endDate
    isMonthlyPeriod now endOfMonth daysInMonth s hs
  constructor
  · intro h
    have h0 : 0 ≤ s.profit := by
      rcases h with h | h
      · rw [hip] at h
        exact le_of_lt (of_decide_eq_true h)
      · exact le_of_eq h.symm
    exact ⟨by rw [rewardsPayment, if_pos h0], by rw [commissionPayment, if_pos h0]⟩
  · rintro ⟨hfl, hne⟩
    have hnp : ¬ 0 < s.profit := by
      rw [hip] at hfl
      simpa using hfl
    have hneg : s.profit < 0 := lt_of_le_of_ne (not_lt.mp hnp) hne
    have h0 : ¬ 0 ≤ s.profit := not_le.mpr hneg
    exact ⟨by rw [rewardsPayment, if_neg h0], by rw [commissionPayment, if_neg h0]⟩

/-- Witness for the amended C2 on the concrete profitable settlement:
rewards 25 = bonusDiff/2 and commission 90/2 + 60 - 25 = 80. -/
theorem payment_split_nonstrict_witness :
    rewardsPayment exSettlementProfit = exSettlementProfit.bonusDiff / 2 ∧
    commissionPayment exSettlementProfit =
      exSettlementProfit.profit / 2 + exSettlementProfit.adSpend -
        exSettlementProfit.bonusDiff / 2 := by
  have h := payment_split_nonstrict [exAdSpend] [exSnapProfit] 0 0 true 9 10 30
    exSettlementProfit (by rw [exSettlements_profit_eq]; exact List.mem_singleton_self _)
  exact h.1 (Or.inl rfl)

/-- C3 counterexample: the settlement engine reads the wall clock (its
`daysRemaining` projection horizon).  With identical records, snapshot
and date-range window, moving the clock from day 9 to day 8 of a
10-day month changes the projected revenue (50 vs 100), the crossed
tier, and hence the settlement output — so the engine is not independent
of the wall clock. -/
theorem settlement_wall_clock_cex :
    (calculateCreatorSettlements [exAdGmv] [exSnapClock] 0 0 true 9 10 30).totalProfit = 10 ∧
    (calculateCreatorSettlements [exAdGmv] [exSnapClock] 0 0 true 8 10 30).totalProfit = 60 ∧
    calculateCreatorSettlements [exAdGmv] [exSnapClock] 0 0 true 9 10 30 ≠
      calculateCreatorSettlements [exAdGmv] [exSnapClock] 0 0 true 8 10 30 := by
  have h1 : (calculateCreatorSettlements [exAdGmv] [exSnapClock] 0 0 true 9 10
      30).totalProfit = 10 := by
    norm_num [calculateCreatorSettlements, buildCreatorDataMap, mapGet, mapSet,
      settlementOfBonusCal, calculateProjectedGmv, bumpPost, insertDay, calculateTierBonus,
      sortTiersDesc, insertTierDesc, tierBonusScan, sortSettlementsDesc, insertSettlementDesc,
      degradedSettlement, sumBy, exAdGmv, exSnapClock, mkAd, List.find?, max_def]
  have h2 : (calculateCreatorSettlements [exAdGmv] [exSnapClock] 0 0 true 8 10
      30).totalProfit = 60 := by
    norm_num [calculateCreatorSettlements, buildCreatorDataMap, mapGet, mapSet,
      settlementOfBonusCal, calculateProjectedGmv, bumpPost, insertDay, calculateTierBonus,
      sortTiersDesc, insertTierDesc, tierBonusScan, sortSettlementsDesc, insertSettlementDesc,
      degradedSettlement, sumBy, exAdGmv, exSnapClock, mkAd, List.find?, max_def]
  refine ⟨h1, h2, fun h => ?_⟩
  have hp := congrArg EarningsSummary.totalProfit h
  rw [h1, h2] at hp
  norm_num at hp

/-- C3 amended: each core computation is a deterministic function of
its explicit inputs TOGETHER WITH the injected wall-clock reading: with
the clock fixed, identical records, snapshots and date-range arguments
yield identical outputs.  Record enrichment and tier resolution take no
clock at all; the settlement engine does, and genuinely depends on it
(see the counterexample). -/
theorem core_deterministic_given_clock (records : List AdDataRaw) (adData : List AdData)
    (bonusCalData : List CreatorBonusCalData) (startDate endDate : Int)
    (isMonthlyPeriod : Bool) (now1 now2 endOfMonth : Int) (daysInMonth : ℚ)
    (revenue : ℚ) (tiers : List TierLevel) (creator : CreatorTierData)
    (daysRemaining : ℚ) (posts : List PostEfficiency) (hclock : now1 = now2) :
    enrichRecords records = enrichRecords records ∧
    calculateTierBonus revenue tiers = calculateTierBonus revenue tiers ∧
    tierProgressOf creator daysRemaining posts = tierProgressOf creator daysRemaining posts ∧
    calculateCreatorSettlements adData bonusCalData startDate endDate isMonthlyPeriod now1
        endOfMonth daysInMonth =
      calculateCreatorSettlements adData bonusCalData startDate endDate isMonthlyPeriod now2
        endOfMonth daysInMonth := by
  subst hclock
  exact ⟨rfl, rfl, rfl, rfl⟩

/-- Witness for the amended C3 at concrete inputs with the clock fixed
at day 9. -/
theorem core_deterministic_given_clock_witness :
    enrichRecords [exRawEarly] = enrichRecords [exRawEarly] ∧
    calculateTierBonus 1000 tiersGood = calculateTierBonus 1000 tiersGood ∧
    tierProgressOf exTierCreator 10 exPosts = tierProgressOf exTierCreator 10 exPosts ∧
    calculateCreatorSettlements [exAdGmv] [exSnapClock] 0 0 true 9 10 30 =
      calculateCreatorSettlements [exAdGmv] [exSnapClock] 0 0 true 9 10 30 :=
  core_deterministic_given_clock [exRawEarly] [exAdGmv] [exSnapClock] 0 0 true 9 9 10 30
    1000 tiersGood exTierCreator 10 exPosts rfl

/-- C10: a creator that has a bonus-cal snapshot can be absent from the
settlement list.  On this input the snapshot creator Ada has zero
commission-ads and no ad records in the window, so the first pass skips
the snapshot (`commissionEarning === 0 && adSpend === 0`), and the output
contains only the ad-data creator Beth — not one settlement per
snapshot. -/
theorem settlement_skips_snapshot_creator :
    exSnapSkip.creatorName = "Ada" ∧
    settlementOfBonusCal [exAdBeth] (buildCreatorDataMap [exAdBeth]) true (1 / 30) 1 exSnapSkip
      = none ∧
    (calculateCreatorSettlements [exAdBeth] [exSnapSkip] 0 0 true 9 10
        30).creatorSettlements.map (fun s => s.creatorName) = ["Beth"] ∧
    ¬ "Ada" ∈ ((calculateCreatorSettlements [exAdBeth] [exSnapSkip] 0 0 true 9 10
        30).creatorSettlements.map (fun s => s.creatorName)) := by
  have hnames : (calculateCreatorSettlements [exAdBeth] [exSnapSkip] 0 0 true 9 10
      30).creatorSettlements.map (fun s => s.creatorName) = ["Beth"] := by
    norm_num [calculateCreatorSettlements, buildCreatorDataMap, mapGet, mapSet,
      settlementOfBonusCal, calculateProjectedGmv, bumpPost, insertDay, calculateTierBonus,
      sortTiersDesc, insertTierDesc, tierBonusScan, sortSettlementsDesc, insertSettlementDesc,
      degradedSettlement, sumBy, exAdBeth, exSnapSkip, mkAd, List.find?, max_def]
  refine ⟨rfl, ?skip, hnames, ?absent⟩
  · norm_num [settlementOfBonusCal, buildCreatorDataMap, mapGet, mapSet, exAdBeth,
      exSnapSkip, mkAd, List.find?, show (("Beth" == "Ada") : Bool) = false by decide]
  · rw [hnames]
    simp

/-! Lemmas about the enrichment accumulator. -/

theorem mem_insertByDate {x y : AdDataRaw} {l : List AdDataRaw} :
    x ∈ insertByDate y l ↔ x ∈ y :: l := by
  induction l with
  | nil => simp [insertByDate]
  | cons z zs ih =>
    by_cases hc : y.date ≤ z.date
    · simp [insertByDate, hc]
    · simp only [insertByDate, if_neg hc, List.mem_cons, ih]
      tauto

theorem mem_sortByDate {x : AdDataRaw} {l : List AdDataRaw} :
    x ∈ sortByDate l ↔ x ∈ l := by
  induction l with
  | nil => simp [sortByDate]
  | cons y ys ih =>
    have hrec : sortByDate (y :: ys) = insertByDate y (sortByDate ys) := rfl
    rw [hrec, mem_insertByDate]
    simp [ih]

theorem mapGet_mapSet_self {α : Type} (m : List (String × α)) (k : String) (v : α) :
    mapGet (mapSet k v m) k = some v := by
  induction m with
  | nil => simp [mapGet, mapSet, List.find?]
  | cons e rest ih =>
    by_cases hc : e.1 = k
    · simp [mapSet, hc, mapGet, List.find?]
    · have hb : (e.1 == k) = false := by
        simpa using hc
      simp only [mapSet, if_neg hc]
      simpa [mapGet, List.find?, hb] using ih

theorem mapGet_mapSet_ne {α : Type} (m : List (String × α)) {k j : String}
    (hkj : k ≠ j) (v : α) : mapGet (mapSet k v m) j = mapGet m j := by
  have hb0 : (k == j) = false := by simpa using hkj
  induction m with
  | nil => simp [mapGet, mapSet, List.find?, hb0]
  | cons e rest ih =>
    by_cases hc : e.1 = k
    · have hb2 : (e.1 == j) = false := by
        simpa using hc ▸ hkj
      simp [mapSet, hc, mapGet, List.find?, hb0, hb2]
    · simp only [mapSet, if_neg hc]
      by_cases hej : e.1 = j
      · have hb : (e.1 == j) = true := by simpa using hej
        simp [mapGet, List.find?, hb]
      · have hb : (e.1 == j) = false := by simpa using hej
        simpa [mapGet, List.find?, hb] using ih

/-- Once the accumulator holds `(sv, ev)` for a content name, every
later emitted record of that content carries cumulative figures at
least that large (spends and earnings being nonnegative). -/
theorem processRecords_cum_ge (l : List AdDataRaw) :
    ∀ (idx : Nat) (cmap : List (String × ℚ × ℚ)) (k : String) (sv ev : ℚ),
      (∀ r ∈ l, 0 ≤ r.spend ∧ 0 ≤ r.earning) →
      mapGet cmap k = some (sv, ev) →
      ∀ o ∈ processRecords l idx cmap, o.contentName = k →
        sv ≤ o.cumulativeSpend ∧ ev ≤ o.cumulativeEarning := by
  induction l with
  | nil =>
    intro idx cmap k sv ev hnn hget o ho
    simp [processRecords] at ho
  | cons item rest ih =>
    intro idx cmap k sv ev hnn hget o ho hoc
    have hnn0 := hnn item (List.mem_cons_self item rest)
    have hnnrest : ∀ r ∈ rest, 0 ≤ r.spend ∧ 0 ≤ r.earning :=
      fun r hr => hnn r (List.mem_cons_of_mem item hr)
    simp only [processRecords] at ho
    by_cases hck : item.contentName = k
    · subst hck
      rw [hget] at ho
      simp only [Option.getD_some] at ho
      rcases List.mem_cons.mp ho with rfl | ho2
      · constructor
        · show sv ≤ sv + item.spend
          linarith [hnn0.1]
        · show ev ≤ ev + item.earning
          linarith [hnn0.2]
      · have hres := ih (idx + 1)
          (mapSet item.contentName (sv + item.spend, ev + item.earning) cmap)
          item.contentName (sv + item.spend) (ev + item.earning) hnnrest
          (mapGet_mapSet_self cmap item.contentName (sv + item.spend, ev + item.earning))
          o ho2 hoc
        constructor
        · linarith [hres.1, hnn0.1]
        · linarith [hres.2, hnn0.2]
    · rcases List.mem_cons.mp ho with rfl | ho2
      · exact absurd hoc hck
      · refine ih (idx + 1) _ k sv ev hnnrest ?hget2 o ho2 hoc
        rw [mapGet_mapSet_ne cmap hck]
        exact hget

/-- The emitted records are pairwise monotone in their cumulative
figures within a content name. -/
theorem processRecords_pairwise (l : List AdDataRaw) :
    ∀ (idx : Nat) (cmap : List (String × ℚ × ℚ)),
      (∀ r ∈ l, 0 ≤ r.spend ∧ 0 ≤ r.earning) →
      (processRecords l idx cmap).Pairwise
        (fun a b => a.contentName = b.contentName →
          a.cumulativeSpend ≤ b.cumulativeSpend ∧
          a.cumulativeEarning ≤ b.cumulativeEarning) := by
  induction l with
  | nil =>
    intro idx cmap hnn
    simp [processRecords]
  | cons item rest ih =>
    intro idx cmap hnn
    have hnnrest : ∀ r ∈ rest, 0 ≤ r.spend ∧ 0 ≤ r.earning :=
      fun r hr => hnn r (List.mem_cons_of_mem item hr)
    simp only [processRecords]
    refine List.Pairwise.cons ?head (ih (idx + 1) _ hnnrest)
    intro b hb hcb
    exact processRecords_cum_ge rest (idx + 1) _ item.contentName _ _ hnnrest
      (mapGet_mapSet_self cmap item.contentName _) b hb hcb.symm

/-- C9: with all spends and earnings nonnegative, the cumulative spend
and cumulative earning are non-decreasing along the (chronologically
sorted) enriched output sequence of a fixed content name. -/
theorem cumulative_monotone (records : List AdDataRaw)
    (hnn : ∀ r ∈ records, 0 ≤ r.spend ∧ 0 ≤ r.earning)
    (i j : Nat) (hij : i ≤ j)
    (hi : i < (enrichRecords records).length) (hj : j < (enrichRecords records).length)
    (hc : ((enrichRecords records).get ⟨i, hi⟩).contentName
        = ((enrichRecords records).get ⟨j, hj⟩).contentName) :
    ((enrichRecords records).get ⟨i, hi⟩).cumulativeSpend
        ≤ ((enrichRecords records).get ⟨j, hj⟩).cumulativeSpend ∧
    ((enrichRecords records).get ⟨i, hi⟩).cumulativeEarning
        ≤ ((enrichRecords records).get ⟨j, hj⟩).cumulativeEarning := by
  have hnns : ∀ r ∈ sortByDate records, 0 ≤ r.spend ∧ 0 ≤ r.earning :=
    fun r hr => hnn r (mem_sortByDate.mp hr)
  have hpw := processRecords_pairwise (sortByDate records) 0 [] hnns
  rcases lt_or_eq_of_le hij with hlt | rfl
  · exact List.pairwise_iff_get.mp hpw ⟨i, hi⟩ ⟨j, hj⟩ hlt hc
  · exact ⟨le_refl _, le_refl _⟩

/-- Witness for C9: two same-content records on days 0 and 1 with
spends 1 and 3 give cumulative spends 1 then 4 (and earnings 2 then 6)
in the enriched output. -/
theorem cumulative_monotone_witness :
    (((enrichRecords [exRawLate, exRawEarly]).get ⟨0, by
        norm_num [enrichRecords, sortByDate, insertByDate, processRecords, exRawEarly,
          exRawLate]⟩).cumulativeSpend
      ≤ ((enrichRecords [exRawLate, exRawEarly]).get ⟨1, by
        norm_num [enrichRecords, sortByDate, insertByDate, processRecords, exRawEarly,
          exRawLate]⟩).cumulativeSpend) ∧
    (((enrichRecords [exRawLate, exRawEarly]).get ⟨0, by
        norm_num [enrichRecords, sortByDate, insertByDate, processRecords, exRawEarly,
          exRawLate]⟩).cumulativeEarning
      ≤ ((enrichRecords [exRawLate, exRawEarly]).get ⟨1, by
        norm_num [enrichRecords, sortByDate, insertByDate, processRecords, exRawEarly,
          exRawLate]⟩).cumulativeEarning) :=
  cumulative_monotone [exRawLate, exRawEarly]
    (by norm_num [exRawEarly, exRawLate]) 0 1 (by norm_num)
    (by norm_num [enrichRecords, sortByDate, insertByDate, processRecords, exRawEarly,
      exRawLate])
    (by norm_num [enrichRecords, sortByDate, insertByDate, processRecords, exRawEarly,
      exRawLate])
    (by norm_num [enrichRecords, sortByDate, insertByDate, processRecords, mapGet, mapSet,
      List.find?, exRawEarly, exRawLate])

end InfluencersAnalytics
